import Mathlib

/-!
Shallow embedding of `TB2J/external/p_tqdm.py` (a vendored copy of the
`p_tqdm` package): map functions with tqdm progress bars for parallel and
sequential processing.

Modelling conventions:
* A Python iterable is a `PyIterable`: the finite list of items it will
  yield, together with a flag recording whether `isinstance(it, Sized)`
  holds (for sized iterables `len` is the length of `items`).
* Keyword arguments are an association list `Kwargs` of string keys to
  `PyVal` values; `dict.pop(key, None)` is `popKw`.
* Python `float` keyword values are modelled as rationals; `round` is
  `pyRound` (nearest integer, ties to even, as in Python 3).
* The mapped function takes the tuple of per-iterable arguments as a
  `List α` and may raise, so it is `List α → Except E β`.
* A generator body is run by an explicit budget `k` of consumer
  `next()` calls: `k = 0` means the generator was created but never
  advanced; draining (`list(gen)`) uses a budget one larger than the
  number of deliverable items, which triggers the `StopIteration` path.
* Observable side effects of `_parallel` are recorded as `Event`s
  (pool creation, each yield, `pool.clear()`).
* The external pathos pool collaborators are modelled by their
  documented contract (`poolDelivered`): `imap` delivers results in
  input order, `uimap` delivers them in an arbitrary completion order
  given by an index permutation `co`.
-/

namespace PTqdm

/-- Python values that appear as keyword-argument values in this module. -/
inductive PyVal : Type
  | int (n : ℤ)
  | float (q : ℚ)
  | bool (b : Bool)
  | str (s : String)
  | pyNone
  deriving DecidableEq

/-- Python truthiness `bool(v)` of a keyword value. -/
def pyTruthy : PyVal → Bool
  | .int n => n != 0
  | .float q => q != 0
  | .bool b => b
  | .str s => s != ""
  | .pyNone => false

/-- Whether a value is a strictly positive Python integer. -/
def PyVal.isPosInt : PyVal → Bool
  | .int n => decide (0 < n)
  | _ => false

/-- A Python iterable: the items it will yield, and whether it is `Sized`. -/
structure PyIterable (α : Type) where
  items : List α
  sized : Bool
  deriving DecidableEq

/-- Keyword arguments of one call. -/
abbrev Kwargs := List (String × PyVal)

/-- Model of `kwargs.pop(key, None)`: looked-up value (if any) and remaining dict. -/
def popKw (k : String) (kw : Kwargs) : Option PyVal × Kwargs :=
  (List.lookup k kw, kw.filter (fun p => !(p.1 == k)))

/-- Python 3 `round` on a rational: nearest integer, ties to even. -/
def pyRound (q : ℚ) : ℤ :=
  let f := ⌊q⌋
  let r := q - f
  if r < 1 / 2 then f
  else if 1 / 2 < r then f + 1
  else if f % 2 = 0 then f else f + 1

/-- Worker-count resolution of `_parallel`:
`num_cpus is None → cpu_count()`, `type(num_cpus) == float →
int(round(num_cpus * cpu_count()))`, otherwise the value is used as is. -/
def resolveNumCpus (cpuCount : ℕ) (v : Option PyVal) : PyVal :=
  match v with
  | none => .int cpuCount
  | some .pyNone => .int cpuCount
  | some (.float q) => .int (pyRound (q * (cpuCount : ℚ)))
  | some w => w

/-- The list `[len(it) for it in iterables if isinstance(it, Sized)]`. -/
def sizedLengths (its : List (PyIterable α)) : List ℕ :=
  (its.filter (fun it => it.sized)).map (fun it => it.items.length)

/-- Python `min` of a list of naturals, `none` on the empty list (where Python
`min` raises `ValueError`). -/
def listMin? : List ℕ → Option ℕ
  | [] => none
  | x :: xs => some (xs.foldl min x)

/-- The value `min(lengths) if lengths else None`, as a `PyVal`. -/
def lengthFromSized (its : List (PyIterable α)) : Option PyVal :=
  (listMin? (sizedLengths its)).map (fun n => .int n)

/-- Resolution of the tqdm total of `_parallel`: `total or (min(lengths) if lengths else None)`,
with Python `or` truthiness on the popped `total` value. -/
def resolveLength (total? : Option PyVal) (its : List (PyIterable α)) : Option PyVal :=
  match total? with
  | some t => if pyTruthy t then some t else lengthFromSized its
  | none => lengthFromSized its

/-- The resolved `num_cpus` of a `_parallel` call. -/
def parallelNumCpus (cpuCount : ℕ) (kw : Kwargs) : PyVal :=
  resolveNumCpus cpuCount (popKw ("num_cpus") kw).1

/-- The resolved tqdm `total` of a `_parallel` call (after popping
`num_cpus` and then `total` from the kwargs). -/
def parallelTotal (kw : Kwargs) (its : List (PyIterable α)) : Option PyVal :=
  resolveLength (popKw ("total") (popKw ("num_cpus") kw).2).1 its

/-- The kwargs `_parallel` forwards to `tqdm` (both recognized keys popped). -/
def parallelTqdmKwargs (kw : Kwargs) : Kwargs :=
  (popKw ("total") (popKw ("num_cpus") kw).2).2

/-- The kwargs `_sequential` forwards to `tqdm`: all of them, unchanged. -/
def sequentialTqdmKwargs (kw : Kwargs) : Kwargs := kw

/-- The tqdm total of `_sequential`:
`min(len(it) for it in iterables if isinstance(it, Sized))`
(the surrounding call raises `ValueError` when no iterable is sized,
see `sequentialRun`). -/
def sequentialTotal (its : List (PyIterable α)) : Option ℕ :=
  listMin? (sizedLengths its)

/-- Length of the shortest of a nonempty family of lists (0 for none). -/
def minLen : List (List α) → ℕ
  | [] => 0
  | [l] => l.length
  | l :: ls => min l.length (minLen ls)

/-- Take `n` rounds of one head from each list. -/
def zipSteps : ℕ → List (List α) → List (List α)
  | 0, _ => []
  | n + 1, ls => ls.filterMap List.head? :: zipSteps n (ls.map List.tail)

/-- Python `zip`-at-shortest of the argument tuples of `map(f, *iterables)`. -/
def zipShortest (ls : List (List α)) : List (List α) :=
  match ls with
  | [] => []
  | l :: rest => zipSteps (minLen (l :: rest)) (l :: rest)

/-- The task list of a call: tuples of corresponding items of the iterables. -/
def zipTasks (its : List (PyIterable α)) : List (List α) :=
  zipShortest (its.map (fun it => it.items))

/-- Observable side effects of the `_parallel` generator body. -/
inductive Event (β : Type)
  | poolCreate (numCpus : PyVal)
  | yield (b : β)
  | poolClear
  deriving DecidableEq

/-- Whether an event is a pool creation. -/
def Event.isCreate : Event β → Bool
  | .poolCreate _ => true
  | _ => false

/-- Python exceptions surfacing from this module: `ValueError` (from `min`
of an empty sequence), `TypeError` (duplicate keyword argument), or an
exception raised by the mapped function. -/
inductive PyErr (E : Type)
  | valueError
  | typeError
  | user (e : E)
  deriving DecidableEq

/-- Modelled contract of the external pathos pool mapping primitives:
`imap` delivers one result per task in input order; `uimap` delivers the
same results in an arbitrary completion order `co` (a permutation of the
task positions, supplied as an oracle).  A task whose function raises
delivers that exception at its delivery slot. -/
def poolDelivered (ordered : Bool) (f : List α → Except E β) (tasks : List (List α))
    (co : List ℕ) : List (Except E β) :=
  if ordered then tasks.map f
  else co.filterMap (fun i => (tasks.map f)[i]?)

/-- Consuming `k` items of the `_parallel` generator loop from the delivered
stream: each `Except.ok` is yielded; the first `Except.error` propagates
(the loop body raises, so the code after the loop never runs); if the
stream is exhausted within budget, the post-loop `pool.clear()` runs. -/
def parallelStep : List (Except E β) → ℕ → List (Event β) × List β × Option (PyErr E)
  | _, 0 => ([], [], none)
  | [], _ + 1 => ([.poolClear], [], none)
  | .ok b :: rest, k + 1 =>
    let r := parallelStep rest k
    (.yield b :: r.1, b :: r.2.1, r.2.2)
  | .error e :: _, _ + 1 => ([], [], some (.user e))

/-- Consuming `k` items of the `_sequential` generator loop. -/
def takeYields : List (Except E β) → ℕ → List β × Option (PyErr E)
  | _, 0 => ([], none)
  | [], _ + 1 => ([], none)
  | .ok b :: rest, k + 1 =>
    let r := takeYields rest k
    (b :: r.1, r.2)
  | .error e :: _, _ + 1 => ([], some (.user e))

/-- Outcome of advancing a `_parallel` generator a given number of times. -/
structure RunOut (β E : Type) where
  events : List (Event β)
  yields : List β
  error? : Option (PyErr E)
  deriving DecidableEq

/-- Running the `_parallel` generator for `k` consumer `next()` calls.
Nothing happens for `k = 0`; the first call runs the body: worker-count
resolution, pool creation, then the yielding loop over the delivered
stream. -/
def parallelRun (cpuCount : ℕ) (ordered : Bool) (f : List α → Except E β)
    (its : List (PyIterable α)) (kw : Kwargs) (co : List ℕ) (k : ℕ) : RunOut β E :=
  match k with
  | 0 => ⟨[], [], none⟩
  | k + 1 =>
    let nc := parallelNumCpus cpuCount kw
    let ds := poolDelivered ordered f (zipTasks its) co
    let r := parallelStep ds (k + 1)
    ⟨.poolCreate nc :: r.1, r.2.1, r.2.2⟩

/-- The value returned by `p_imap` / `p_uimap`: a suspended generator,
plain data, no work done yet. -/
structure ParallelCall (α β E : Type) where
  ordered : Bool
  f : List α → Except E β
  iterables : List (PyIterable α)
  kwargs : Kwargs

/-- Model of `p_imap`: returns the `_parallel` generator with `ordered = True`. -/
def p_imap (f : List α → Except E β) (its : List (PyIterable α)) (kw : Kwargs) :
    ParallelCall α β E :=
  ⟨true, f, its, kw⟩

/-- Model of `p_uimap`: returns the `_parallel` generator with `ordered = False`. -/
def p_uimap (f : List α → Except E β) (its : List (PyIterable α)) (kw : Kwargs) :
    ParallelCall α β E :=
  ⟨false, f, its, kw⟩

/-- Advance a suspended parallel generator `k` times. -/
def ParallelCall.run (c : ParallelCall α β E) (cpuCount : ℕ) (co : List ℕ) (k : ℕ) :
    RunOut β E :=
  parallelRun cpuCount c.ordered c.f c.iterables c.kwargs co k

/-- Number of items the pool will deliver for this call. -/
def ParallelCall.numDelivered (c : ParallelCall α β E) (co : List ℕ) : ℕ :=
  (poolDelivered c.ordered c.f (zipTasks c.iterables) co).length

/-- Draining, `list(generator)`: keep calling `next()` until `StopIteration`. -/
def ParallelCall.drain (c : ParallelCall α β E) (cpuCount : ℕ) (co : List ℕ) : RunOut β E :=
  c.run cpuCount co (c.numDelivered co + 1)

/-- Model of `p_map`: `list(_parallel(True, function, *iterables, **kwargs))`. -/
def p_map (cpuCount : ℕ) (f : List α → Except E β) (its : List (PyIterable α))
    (kw : Kwargs) (co : List ℕ) : RunOut β E :=
  (p_imap f its kw).drain cpuCount co

/-- Model of `p_umap`: `list(_parallel(False, function, *iterables, **kwargs))`. -/
def p_umap (cpuCount : ℕ) (f : List α → Except E β) (its : List (PyIterable α))
    (kw : Kwargs) (co : List ℕ) : RunOut β E :=
  (p_uimap f its kw).drain cpuCount co

/-- The value returned by `t_imap`: a suspended generator. -/
structure SequentialCall (α β E : Type) where
  f : List α → Except E β
  iterables : List (PyIterable α)
  kwargs : Kwargs

/-- Model of `t_imap`: returns the `_sequential` generator, doing no work yet. -/
def t_imap (f : List α → Except E β) (its : List (PyIterable α)) (kw : Kwargs) :
    SequentialCall α β E :=
  ⟨f, its, kw⟩

/-- Running the `_sequential` generator for `k` consumer `next()` calls.
The first call computes `min(len(it) for it in iterables if Sized)`
(`ValueError` on an empty generator), then calls
`tqdm(map(function, *iterables), total=length, **kwargs)` (a duplicate
`total` keyword is a `TypeError`), then serves the loop. -/
def sequentialRun (f : List α → Except E β) (its : List (PyIterable α)) (kw : Kwargs)
    (k : ℕ) : List β × Option (PyErr E) :=
  match k with
  | 0 => ([], none)
  | k + 1 =>
    if sizedLengths its = [] then ([], some .valueError)
    else if ((popKw ("total") kw).1).isSome then ([], some .typeError)
    else takeYields ((zipTasks its).map f) (k + 1)

/-- Advance a suspended sequential generator `k` times. -/
def SequentialCall.run (c : SequentialCall α β E) (k : ℕ) : List β × Option (PyErr E) :=
  sequentialRun c.f c.iterables c.kwargs k

/-- Draining of the sequential generator, `list(generator)`. -/
def SequentialCall.drain (c : SequentialCall α β E) : List β × Option (PyErr E) :=
  c.run (((zipTasks c.iterables).map c.f).length + 1)

/-- Model of `t_map`: `list(_sequential(function, *iterables, **kwargs))`. -/
def t_map (f : List α → Except E β) (its : List (PyIterable α)) (kw : Kwargs) :
    List β × Option (PyErr E) :=
  (t_imap f its kw).drain

/-! ### Basic lemmas about the embedding -/

variable {α β γ E : Type}

theorem zipSteps_length (n : ℕ) : ∀ ls : List (List α), (zipSteps n ls).length = n := by
  induction n with
  | zero => intro ls; rfl
  | succ m ih => intro ls; simp [zipSteps, ih]

theorem zipSteps_single (l : List α) : zipSteps l.length [l] = l.map (fun x => [x]) := by
  induction l with
  | nil => rfl
  | cons x xs ih => simp [zipSteps, List.filterMap_cons, ih]

theorem zipShortest_single (l : List α) : zipShortest [l] = l.map (fun x => [x]) :=
  zipSteps_single l

theorem zipTasks_single (xs : List α) (s : Bool) :
    zipTasks [⟨xs, s⟩] = xs.map (fun x => [x]) :=
  zipShortest_single xs

theorem zipShortest_length (ls : List (List α)) (h : ls ≠ []) :
    (zipShortest ls).length = minLen ls := by
  cases ls with
  | nil => exact absurd rfl h
  | cons l rest => exact zipSteps_length _ _

theorem poolDelivered_ordered (f : List α → Except E β) (tasks : List (List α))
    (co : List ℕ) : poolDelivered true f tasks co = tasks.map f := rfl

theorem parallelRun_zero (cpuCount : ℕ) (ordered : Bool) (f : List α → Except E β)
    (its : List (PyIterable α)) (kw : Kwargs) (co : List ℕ) :
    parallelRun cpuCount ordered f its kw co 0 = ⟨[], [], none⟩ := rfl

theorem parallelRun_succ (cpuCount : ℕ) (ordered : Bool) (f : List α → Except E β)
    (its : List (PyIterable α)) (kw : Kwargs) (co : List ℕ) (k : ℕ) :
    parallelRun cpuCount ordered f its kw co (k + 1)
      = ⟨Event.poolCreate (parallelNumCpus cpuCount kw) ::
            (parallelStep (poolDelivered ordered f (zipTasks its) co) (k + 1)).1,
         (parallelStep (poolDelivered ordered f (zipTasks its) co) (k + 1)).2.1,
         (parallelStep (poolDelivered ordered f (zipTasks its) co) (k + 1)).2.2⟩ := rfl

theorem parallelStep_all_ok (l : List β) :
    ∀ k, l.length < k →
      parallelStep ((l.map Except.ok : List (Except E β))) k
        = (l.map Event.yield ++ [Event.poolClear], l, none) := by
  induction l with
  | nil =>
    intro k hk
    cases k with
    | zero => exact absurd hk (by simp)
    | succ m => rfl
  | cons b bs ih =>
    intro k hk
    cases k with
    | zero => exact absurd hk (by simp)
    | succ m =>
      have hm : bs.length < m := by simpa using hk
      simp [parallelStep, ih m hm]

theorem parallelStep_all_ok_le (l : List β) :
    ∀ k, k ≤ l.length →
      parallelStep ((l.map Except.ok : List (Except E β))) k
        = ((l.take k).map Event.yield, l.take k, none) := by
  induction l with
  | nil =>
    intro k hk
    have : k = 0 := Nat.le_zero.mp hk
    subst this; rfl
  | cons b bs ih =>
    intro k hk
    cases k with
    | zero => rfl
    | succ m =>
      have hm : m ≤ bs.length := by simpa using hk
      simp [parallelStep, ih m hm]

theorem parallelStep_split_le (pre : List β) (e : E) (post : List (Except E β)) :
    ∀ k, k ≤ pre.length →
      parallelStep (pre.map Except.ok ++ Except.error e :: post) k
        = ((pre.take k).map Event.yield, pre.take k, none) := by
  induction pre with
  | nil =>
    intro k hk
    have : k = 0 := Nat.le_zero.mp hk
    subst this; rfl
  | cons b bs ih =>
    intro k hk
    cases k with
    | zero => rfl
    | succ m =>
      have hm : m ≤ bs.length := by simpa using hk
      simp [parallelStep, ih m hm]

theorem parallelStep_split_hit (pre : List β) (e : E) (post : List (Except E β)) :
    ∀ k, pre.length < k →
      parallelStep (pre.map Except.ok ++ Except.error e :: post) k
        = (pre.map Event.yield, pre, some (PyErr.user e)) := by
  induction pre with
  | nil =>
    intro k hk
    cases k with
    | zero => exact absurd hk (by simp)
    | succ m => rfl
  | cons b bs ih =>
    intro k hk
    cases k with
    | zero => exact absurd hk (by simp)
    | succ m =>
      have hm : bs.length < m := by simpa using hk
      simp [parallelStep, ih m hm]

theorem takeYields_all_ok (l : List β) :
    ∀ k, l.length < k →
      takeYields ((l.map Except.ok : List (Except E β))) k = (l, none) := by
  induction l with
  | nil =>
    intro k hk
    cases k with
    | zero => exact absurd hk (by simp)
    | succ m => rfl
  | cons b bs ih =>
    intro k hk
    cases k with
    | zero => exact absurd hk (by simp)
    | succ m =>
      have hm : bs.length < m := by simpa using hk
      simp [takeYields, ih m hm]

theorem takeYields_split_le (pre : List β) (e : E) (post : List (Except E β)) :
    ∀ k, k ≤ pre.length →
      takeYields (pre.map Except.ok ++ Except.error e :: post) k = (pre.take k, none) := by
  induction pre with
  | nil =>
    intro k hk
    have : k = 0 := Nat.le_zero.mp hk
    subst this; rfl
  | cons b bs ih =>
    intro k hk
    cases k with
    | zero => rfl
    | succ m =>
      have hm : m ≤ bs.length := by simpa using hk
      simp [takeYields, ih m hm]

theorem takeYields_split_hit (pre : List β) (e : E) (post : List (Except E β)) :
    ∀ k, pre.length < k →
      takeYields (pre.map Except.ok ++ Except.error e :: post) k = (pre, some (PyErr.user e)) := by
  induction pre with
  | nil =>
    intro k hk
    cases k with
    | zero => exact absurd hk (by simp)
    | succ m => rfl
  | cons b bs ih =>
    intro k hk
    cases k with
    | zero => exact absurd hk (by simp)
    | succ m =>
      have hm : bs.length < m := by simpa using hk
      simp [takeYields, ih m hm]

theorem takeYields_ne_valueError (ds : List (Except E β)) :
    ∀ k, (takeYields ds k).2 ≠ some PyErr.valueError := by
  induction ds with
  | nil =>
    intro k
    cases k <;> simp [takeYields]
  | cons d rest ih =>
    intro k
    cases k with
    | zero => simp [takeYields]
    | succ m =>
      cases d with
      | ok b => simpa [takeYields] using ih m
      | error e => simp [takeYields]

theorem parallelStep_no_create (ds : List (Except E β)) :
    ∀ k, ((parallelStep ds k).1.countP Event.isCreate) = 0 := by
  induction ds with
  | nil =>
    intro k
    cases k <;> simp [parallelStep, List.countP_cons, Event.isCreate]
  | cons d rest ih =>
    intro k
    cases k with
    | zero => simp [parallelStep]
    | succ m =>
      cases d with
      | ok b => simpa [parallelStep, List.countP_cons, Event.isCreate] using ih m
      | error e => simp [parallelStep]

theorem filterMap_getElem_range (l : List γ) :
    (List.range l.length).filterMap (fun i => l[i]?) = l := by
  induction l with
  | nil => rfl
  | cons x xs ih =>
    rw [List.length_cons, List.range_succ_eq_map]
    simpa [List.filterMap_cons, List.filterMap_map, Function.comp_def] using ih

theorem poolDelivered_unordered_perm (f : List α → Except E β) (tasks : List (List α))
    (co : List ℕ) (hco : co.Perm (List.range tasks.length)) :
    (poolDelivered false f tasks co).Perm (tasks.map f) := by
  have h1 := hco.filterMap (fun i => (tasks.map f)[i]?)
  have h2 : (List.range (tasks.map f).length).filterMap (fun i => (tasks.map f)[i]?)
      = tasks.map f := filterMap_getElem_range _
  rw [List.length_map] at h2
  rw [h2] at h1
  simpa [poolDelivered] using h1

/-- Extract the payload of an `Except.ok`. -/
def okVal : Except E β → Option β
  | .ok b => some b
  | .error _ => none

theorem eq_map_ok_of_forall_ok (ds : List (Except E β))
    (h : ∀ x ∈ ds, ∃ b, x = Except.ok b) :
    ds = (ds.filterMap okVal).map Except.ok := by
  induction ds with
  | nil => rfl
  | cons d rest ih =>
    obtain ⟨b, hb⟩ := h d (by simp)
    subst hb
    simpa [okVal, List.filterMap_cons] using ih (fun x hx => h x (by simp [hx]))

theorem okVal_map_ok (l : List β) :
    ((l.map Except.ok : List (Except E β))).filterMap okVal = l := by
  induction l with
  | nil => rfl
  | cons b bs ih => simpa [okVal, List.filterMap_cons] using ih

/-- Full drain of a parallel call whose pool delivers exactly the payloads
`l`, all successful. -/
theorem drain_all_ok (cpuCount : ℕ) (ordered : Bool)
    (f : List α → Except E β) (its : List (PyIterable α)) (kw : Kwargs) (co : List ℕ)
    (l : List β) (hds : poolDelivered ordered f (zipTasks its) co = l.map Except.ok) :
    ParallelCall.drain ⟨ordered, f, its, kw⟩ cpuCount co
      = ⟨Event.poolCreate (parallelNumCpus cpuCount kw) ::
            (l.map Event.yield ++ [Event.poolClear]), l, none⟩ := by
  have hlen : (poolDelivered ordered f (zipTasks its) co).length = l.length := by
    rw [hds]; simp
  simp only [ParallelCall.drain, ParallelCall.run, ParallelCall.numDelivered]
  rw [hlen, parallelRun_succ, hds,
    parallelStep_all_ok l (l.length + 1) (Nat.lt_succ_self _)]

theorem sequentialRun_checks (f : List α → Except E β) (its : List (PyIterable α))
    (kw : Kwargs) (k : ℕ) (hsz : sizedLengths its ≠ [])
    (htot : List.lookup ("total") kw = none) :
    sequentialRun f its kw (k + 1) = takeYields ((zipTasks its).map f) (k + 1) := by
  simp [sequentialRun, hsz, popKw, htot]

/-! ### The claims -/

/-- C1: for every function and every (sized, finite) iterable, the eager
ordered-parallel map `p_map` and the eager sequential map `t_map` both
return the list `[f(x) for x in xs]`, element for element, in input
order. -/
theorem c1_ordered_eager_maps_agree (g : List α → β) (xs : List α)
    (cpuCount : ℕ) (co : List ℕ) :
    (p_map cpuCount (fun t => (Except.ok (g t) : Except E β)) [⟨xs, true⟩] [] co).yields
        = xs.map (fun x => g [x])
  ∧ (p_map cpuCount (fun t => (Except.ok (g t) : Except E β)) [⟨xs, true⟩] [] co).error? = none
  ∧ (t_map (fun t => (Except.ok (g t) : Except E β)) [⟨xs, true⟩] []).1 = xs.map (fun x => g [x])
  ∧ (t_map (fun t => (Except.ok (g t) : Except E β)) [⟨xs, true⟩] []).2 = none := by
  have hds : poolDelivered true (fun t => (Except.ok (g t) : Except E β))
      (zipTasks [⟨xs, true⟩]) co = (xs.map (fun x => g [x])).map Except.ok := by
    rw [poolDelivered_ordered, zipTasks_single, List.map_map, List.map_map]
    rfl
  have hp := drain_all_ok cpuCount true (fun t => (Except.ok (g t) : Except E β))
    [⟨xs, true⟩] [] co (xs.map (fun x => g [x])) hds
  have hseqds : (zipTasks ([⟨xs, true⟩] : List (PyIterable α))).map
      (fun t => (Except.ok (g t) : Except E β)) = (xs.map (fun x => g [x])).map Except.ok := by
    rw [zipTasks_single, List.map_map, List.map_map]
    rfl
  have hsz : sizedLengths ([⟨xs, true⟩] : List (PyIterable α)) ≠ [] := by
    simp [sizedLengths]
  have ht : t_map (fun t => (Except.ok (g t) : Except E β)) [⟨xs, true⟩] []
      = (xs.map (fun x => g [x]), none) := by
    simp only [t_map, t_imap, SequentialCall.drain, SequentialCall.run]
    rw [sequentialRun_checks (fun t => (Except.ok (g t) : Except E β)) [⟨xs, true⟩] [] _ hsz rfl,
      hseqds,
      takeYields_all_ok (xs.map (fun x => g [x]))
        (((xs.map (fun x => g [x])).map Except.ok).length + 1) (by simp)]
  refine ⟨?_, ?_, ?_, ?_⟩
  · show (ParallelCall.drain ⟨true, _, _, _⟩ cpuCount co).yields = _
    rw [hp]
  · show (ParallelCall.drain ⟨true, _, _, _⟩ cpuCount co).error? = _
    rw [hp]
  · rw [ht]
  · rw [ht]

/-- C2: the unordered-parallel maps (`p_umap` eager, `p_uimap` drained to
exhaustion) produce, for any completion order of the pool, the same
multiset of results as `[f(x) for x in xs]`: every input is processed
exactly once and every output appears, with no positional guarantee. -/
theorem c2_unordered_maps_multiset (g : List α → β) (xs : List α)
    (cpuCount : ℕ) (co : List ℕ) (hco : co.Perm (List.range xs.length)) :
    ((p_umap cpuCount (fun t => (Except.ok (g t) : Except E β)) [⟨xs, true⟩] [] co).yields).Perm
        (xs.map (fun x => g [x]))
  ∧ (p_umap cpuCount (fun t => (Except.ok (g t) : Except E β)) [⟨xs, true⟩] [] co).error? = none
  ∧ ParallelCall.drain (p_uimap (fun t => (Except.ok (g t) : Except E β)) [⟨xs, true⟩] []) cpuCount co
      = p_umap cpuCount (fun t => (Except.ok (g t) : Except E β)) [⟨xs, true⟩] [] co := by
  set f : List α → Except E β := fun t => Except.ok (g t) with hf
  set l : List β := xs.map (fun x => g [x]) with hl
  have htasks : zipTasks ([⟨xs, true⟩] : List (PyIterable α)) = xs.map (fun x => [x]) :=
    zipTasks_single xs true
  have hmapf : (zipTasks ([⟨xs, true⟩] : List (PyIterable α))).map f = l.map Except.ok := by
    rw [htasks, List.map_map, List.map_map]
    rfl
  have hlen : (zipTasks ([⟨xs, true⟩] : List (PyIterable α))).length = xs.length := by
    rw [htasks, List.length_map]
  have hperm : (poolDelivered false f (zipTasks [⟨xs, true⟩]) co).Perm (l.map Except.ok) := by
    have := poolDelivered_unordered_perm f (zipTasks [⟨xs, true⟩]) co (by rw [hlen]; exact hco)
    rw [hmapf] at this
    exact this
  have hallok : ∀ x ∈ poolDelivered false f (zipTasks [⟨xs, true⟩]) co, ∃ b, x = Except.ok b := by
    intro x hx
    have hx2 : x ∈ l.map Except.ok := hperm.subset hx
    obtain ⟨b, _, hb⟩ := List.mem_map.mp hx2
    exact ⟨b, hb.symm⟩
  have hds := eq_map_ok_of_forall_ok _ hallok
  set l2 : List β := (poolDelivered false f (zipTasks [⟨xs, true⟩]) co).filterMap okVal with hl2
  have hl2perm : l2.Perm l := by
    have := hperm.filterMap okVal
    rw [okVal_map_ok] at this
    exact this
  have hdrain := drain_all_ok cpuCount false f [⟨xs, true⟩] [] co l2 hds
  refine ⟨?_, ?_, rfl⟩
  · show (ParallelCall.drain ⟨false, f, [⟨xs, true⟩], []⟩ cpuCount co).yields.Perm l
    rw [hdrain]
    exact hl2perm
  · show (ParallelCall.drain ⟨false, f, [⟨xs, true⟩], []⟩ cpuCount co).error? = none
    rw [hdrain]

/-- Witness for C2 at a concrete input: squaring over `[1, 2, 3, 4]` with
completion order `[2, 0, 3, 1]`. -/
theorem c2_unordered_maps_multiset_witness :
    ((p_umap 4 (fun t => (Except.ok (t.foldr (fun a b => a * a + b) 0) : Except Unit ℕ))
        [⟨[1, 2, 3, 4], true⟩] [] [2, 0, 3, 1]).yields).Perm
        ([1, 2, 3, 4].map (fun x => [x].foldr (fun a b => a * a + b) 0))
  ∧ (p_umap 4 (fun t => (Except.ok (t.foldr (fun a b => a * a + b) 0) : Except Unit ℕ))
        [⟨[1, 2, 3, 4], true⟩] [] [2, 0, 3, 1]).error? = none
  ∧ ParallelCall.drain (p_uimap (fun t => (Except.ok (t.foldr (fun a b => a * a + b) 0) : Except Unit ℕ))
        [⟨[1, 2, 3, 4], true⟩] []) 4 [2, 0, 3, 1]
      = p_umap 4 (fun t => (Except.ok (t.foldr (fun a b => a * a + b) 0) : Except Unit ℕ))
        [⟨[1, 2, 3, 4], true⟩] [] [2, 0, 3, 1] :=
  c2_unordered_maps_multiset (fun t => t.foldr (fun a b => a * a + b) 0) [1, 2, 3, 4] 4
    [2, 0, 3, 1] (by decide)

theorem lookup_filter_ne (k k2 : String) (kw : Kwargs) (hne : k ≠ k2) :
    List.lookup k (kw.filter (fun p => !(p.1 == k2))) = List.lookup k kw := by
  induction kw with
  | nil => rfl
  | cons hd tl ih =>
    rcases hd with ⟨a, v⟩
    by_cases h1 : a = k2
    · have ha : (a == k2) = true := beq_iff_eq.mpr h1
      have hka : (k == a) = false := beq_eq_false_iff_ne.mpr (fun h => hne (h.trans h1))
      simp [List.filter_cons, List.lookup, ha, hka, ih]
    · have ha : (a == k2) = false := beq_eq_false_iff_ne.mpr h1
      by_cases h2 : k = a
      · have hka : (k == a) = true := beq_iff_eq.mpr h2
        simp [List.filter_cons, List.lookup, ha, hka]
      · have hka : (k == a) = false := beq_eq_false_iff_ne.mpr h2
        simp [List.filter_cons, List.lookup, ha, hka, ih]

theorem pyRound_intCast (n : ℤ) : pyRound ((n : ℚ)) = n := by
  simp [pyRound, Int.floor_intCast]

theorem sequentialRun_valueError_iff (f : List α → Except E β) (its : List (PyIterable α))
    (kw : Kwargs) (k : ℕ) (hk : 1 ≤ k) :
    (sequentialRun f its kw k).2 = some PyErr.valueError ↔ sizedLengths its = [] := by
  cases k with
  | zero => exact absurd hk (by simp)
  | succ m =>
    by_cases hsz : sizedLengths its = []
    · simp [sequentialRun, hsz]
    · constructor
      · intro hEq
        exfalso
        by_cases h2 : ((popKw ("total") kw).1).isSome
        · simp [sequentialRun, hsz, h2] at hEq
        · simp [sequentialRun, hsz, h2] at hEq
          exact takeYields_ne_valueError _ _ hEq
      · intro hEq
        exact absurd hEq hsz

/-- C3 counterexample: an explicit integer total override of `0` is not
used as the progress total; `total or ...` treats `0` as absent and falls
back to the inferred length `5` of the sized iterable. -/
theorem c3_counterexample :
    parallelTotal [(("total"), PyVal.int 0)] [(⟨[0, 1, 2, 3, 4], true⟩ : PyIterable ℕ)]
      = some (PyVal.int 5)
  ∧ some (PyVal.int 5) ≠ some (PyVal.int 0) :=
  ⟨rfl, by decide⟩

/-- C3 (amended): progress-total resolution for the parallel entry points:
a truthy override (e.g. a nonzero integer) is used as the display total; a
falsy override (`0`, `None`) or no override falls back to the minimum
known length among the sized iterables, and to no total when no iterable
is sized.  The sequential entry points do not consume the override (it
stays in the kwargs they forward); their own display total is always the
minimum known length among sized iterables. -/
theorem c3_total_resolution_amended (its its2 : List (PyIterable α)) (t t0 : PyVal)
    (kw : Kwargs) (n : ℕ) (hmin : listMin? (sizedLengths its) = some n)
    (hempty : sizedLengths its2 = [])
    (ht : pyTruthy t = true) (ht0 : pyTruthy t0 = false) :
    resolveLength (some t) its = some t
  ∧ resolveLength (some t0) its = some (PyVal.int n)
  ∧ resolveLength none its = some (PyVal.int n)
  ∧ resolveLength none its2 = none
  ∧ resolveLength (some t0) its2 = none
  ∧ parallelTotal kw its = resolveLength (List.lookup ("total") kw) its
  ∧ sequentialTotal its = some n
  ∧ (popKw ("total") (sequentialTqdmKwargs kw)).1 = List.lookup ("total") kw := by
  refine ⟨?_, ?_, ?_, ?_, ?_, ?_, ?_, ?_⟩
  · simp [resolveLength, ht]
  · simp [resolveLength, ht0, lengthFromSized, hmin]
  · simp [resolveLength, lengthFromSized, hmin]
  · simp [resolveLength, lengthFromSized, listMin?, hempty]
  · simp [resolveLength, ht0, lengthFromSized, listMin?, hempty]
  · show resolveLength (popKw ("total") (popKw ("num_cpus") kw).2).1 its = _
    have : (popKw ("total") (popKw ("num_cpus") kw).2).1 = List.lookup ("total") kw := by
      show List.lookup ("total") (kw.filter (fun p => !(p.1 == "num_cpus")))
        = List.lookup ("total") kw
      exact lookup_filter_ne _ _ kw (by decide)
    rw [this]
  · exact hmin
  · rfl

/-- Witness for C3 (amended) at concrete inputs: sized lengths `[3, 2]`
(minimum 2), truthy override `7`, falsy override `0`, one unsized family. -/
theorem c3_total_resolution_amended_witness :
    resolveLength (some (PyVal.int 7))
        [(⟨[1, 2, 3], true⟩ : PyIterable ℕ), ⟨[9, 9], true⟩, ⟨[0], false⟩]
        = some (PyVal.int 7)
  ∧ resolveLength (some (PyVal.int 0))
        [(⟨[1, 2, 3], true⟩ : PyIterable ℕ), ⟨[9, 9], true⟩, ⟨[0], false⟩]
        = some (PyVal.int 2)
  ∧ resolveLength none [(⟨[1, 2, 3], true⟩ : PyIterable ℕ), ⟨[9, 9], true⟩, ⟨[0], false⟩]
      = some (PyVal.int 2)
  ∧ resolveLength none [(⟨[4], false⟩ : PyIterable ℕ)] = none
  ∧ resolveLength (some (PyVal.int 0)) [(⟨[4], false⟩ : PyIterable ℕ)] = none
  ∧ parallelTotal [(("num_cpus"), PyVal.float (1 / 2)), (("desc"), PyVal.str ("J")),
        (("total"), PyVal.int 7)]
        [(⟨[1, 2, 3], true⟩ : PyIterable ℕ), ⟨[9, 9], true⟩, ⟨[0], false⟩]
      = resolveLength
          (List.lookup ("total") [(("num_cpus"), PyVal.float (1 / 2)),
            (("desc"), PyVal.str ("J")), (("total"), PyVal.int 7)])
          [(⟨[1, 2, 3], true⟩ : PyIterable ℕ), ⟨[9, 9], true⟩, ⟨[0], false⟩]
  ∧ sequentialTotal [(⟨[1, 2, 3], true⟩ : PyIterable ℕ), ⟨[9, 9], true⟩, ⟨[0], false⟩]
      = some 2
  ∧ (popKw ("total") (sequentialTqdmKwargs [(("num_cpus"), PyVal.float (1 / 2)),
        (("desc"), PyVal.str ("J")), (("total"), PyVal.int 7)])).1
      = List.lookup ("total") [(("num_cpus"), PyVal.float (1 / 2)),
          (("desc"), PyVal.str ("J")), (("total"), PyVal.int 7)] :=
  c3_total_resolution_amended
    [⟨[1, 2, 3], true⟩, ⟨[9, 9], true⟩, ⟨[0], false⟩] [⟨[4], false⟩]
    (PyVal.int 7) (PyVal.int 0)
    [(("num_cpus"), PyVal.float (1 / 2)), (("desc"), PyVal.str ("J")),
      (("total"), PyVal.int 7)] 2 (by decide) (by decide) (by decide) (by decide)

/-- C4 counterexample: an explicit integer override of `0` is used exactly,
so worker-count resolution yields `0`, which is not a positive integer. -/
theorem c4_counterexample :
    parallelNumCpus 8 [(("num_cpus"), PyVal.int 0)] = PyVal.int 0
  ∧ PyVal.isPosInt (parallelNumCpus 8 [(("num_cpus"), PyVal.int 0)]) = false :=
  ⟨rfl, rfl⟩

/-- C4 (amended): worker-count resolution: an explicit integer override is
used exactly (hence positive only when the override itself is positive); a
float override `q` resolves to `round(q * cpuCount)` with Python rounding;
no override (or `None`) resolves to the detected hardware concurrency,
which is positive whenever the detected concurrency is.  The examples
from the spec hold: override `0.5` with concurrency `8` gives `4`,
override `3` gives `3`, no override gives `8`. -/
theorem c4_num_cpus_resolution_amended (cpuCount : ℕ) (hcc : 1 ≤ cpuCount)
    (n n0 : ℤ) (hn : 0 < n) (q : ℚ) (kw : Kwargs) :
    resolveNumCpus cpuCount none = PyVal.int cpuCount
  ∧ resolveNumCpus cpuCount (some PyVal.pyNone) = PyVal.int cpuCount
  ∧ PyVal.isPosInt (resolveNumCpus cpuCount none) = true
  ∧ resolveNumCpus cpuCount (some (PyVal.int n0)) = PyVal.int n0
  ∧ PyVal.isPosInt (resolveNumCpus cpuCount (some (PyVal.int n))) = true
  ∧ resolveNumCpus cpuCount (some (PyVal.float q)) = PyVal.int (pyRound (q * (cpuCount : ℚ)))
  ∧ resolveNumCpus 8 (some (PyVal.float (1 / 2))) = PyVal.int 4
  ∧ resolveNumCpus 8 (some (PyVal.int 3)) = PyVal.int 3
  ∧ resolveNumCpus 8 none = PyVal.int 8
  ∧ parallelNumCpus cpuCount kw = resolveNumCpus cpuCount (List.lookup ("num_cpus") kw) := by
  refine ⟨rfl, rfl, ?_, rfl, ?_, rfl, ?_, rfl, rfl, rfl⟩
  · simp [resolveNumCpus, PyVal.isPosInt]
    exact_mod_cast hcc
  · simp [resolveNumCpus, PyVal.isPosInt, hn]
  · show PyVal.int (pyRound ((1 / 2 : ℚ) * (8 : ℚ))) = PyVal.int 4
    have h4 : ((1 / 2 : ℚ)) * (8 : ℚ) = ((4 : ℤ) : ℚ) := by norm_num
    rw [h4, pyRound_intCast]

/-- Witness for C4 (amended) with concurrency 8, integer overrides 3 and
-2, and float override one half. -/
theorem c4_num_cpus_resolution_amended_witness :
    resolveNumCpus 8 none = PyVal.int 8
  ∧ resolveNumCpus 8 (some PyVal.pyNone) = PyVal.int 8
  ∧ PyVal.isPosInt (resolveNumCpus 8 none) = true
  ∧ resolveNumCpus 8 (some (PyVal.int (-2))) = PyVal.int (-2)
  ∧ PyVal.isPosInt (resolveNumCpus 8 (some (PyVal.int 3))) = true
  ∧ resolveNumCpus 8 (some (PyVal.float (1 / 2))) = PyVal.int (pyRound ((1 / 2 : ℚ) * ((8 : ℕ) : ℚ)))
  ∧ resolveNumCpus 8 (some (PyVal.float (1 / 2))) = PyVal.int 4
  ∧ resolveNumCpus 8 (some (PyVal.int 3)) = PyVal.int 3
  ∧ resolveNumCpus 8 none = PyVal.int 8
  ∧ parallelNumCpus 8 [(("num_cpus"), PyVal.int 3)]
      = resolveNumCpus 8 (List.lookup ("num_cpus") [(("num_cpus"), PyVal.int 3)]) :=
  c4_num_cpus_resolution_amended 8 (by decide) 3 (-2) (by decide) (1 / 2)
    [(("num_cpus"), PyVal.int 3)]

/-- C5: the sequential entry points raise a `ValueError` (when their
generator is advanced) exactly when no supplied iterable has a known
length; the parallel entry points impose no such requirement and succeed
with an all-unsized iterable. -/
theorem c5_sequential_requires_sized (f : List α → Except E β) (its : List (PyIterable α))
    (kw : Kwargs) (k : ℕ) (hk : 1 ≤ k) (g : List α → β) (xs : List α)
    (cpuCount : ℕ) (co : List ℕ) :
    ((sequentialRun f its kw k).2 = some PyErr.valueError ↔ sizedLengths its = [])
  ∧ ((t_map f its kw).2 = some PyErr.valueError ↔ sizedLengths its = [])
  ∧ (p_map cpuCount (fun t => (Except.ok (g t) : Except E β)) [⟨xs, false⟩] [] co).error? = none
  ∧ (p_map cpuCount (fun t => (Except.ok (g t) : Except E β)) [⟨xs, false⟩] [] co).yields
      = xs.map (fun x => g [x]) := by
  have hds : poolDelivered true (fun t => (Except.ok (g t) : Except E β))
      (zipTasks [⟨xs, false⟩]) co = (xs.map (fun x => g [x])).map Except.ok := by
    rw [poolDelivered_ordered, zipTasks_single, List.map_map, List.map_map]
    rfl
  have hp := drain_all_ok cpuCount true (fun t => (Except.ok (g t) : Except E β))
    [⟨xs, false⟩] [] co (xs.map (fun x => g [x])) hds
  refine ⟨sequentialRun_valueError_iff f its kw k hk, ?_, ?_, ?_⟩
  · show (sequentialRun f its kw _).2 = some PyErr.valueError ↔ sizedLengths its = []
    exact sequentialRun_valueError_iff f its kw _ (Nat.succ_le_succ (Nat.zero_le _))
  · show (ParallelCall.drain ⟨true, _, _, _⟩ cpuCount co).error? = none
    rw [hp]
  · show (ParallelCall.drain ⟨true, _, _, _⟩ cpuCount co).yields = _
    rw [hp]

/-- Witness for C5 on an unsized iterable `[5, 6]` (sequential raises
`ValueError`, parallel succeeds). -/
theorem c5_sequential_requires_sized_witness :
    ((sequentialRun (fun t => (Except.ok (t.length) : Except Unit ℕ)) [⟨[5, 6], false⟩] [] 1).2
        = some PyErr.valueError ↔ sizedLengths [(⟨[5, 6], false⟩ : PyIterable ℕ)] = [])
  ∧ ((t_map (fun t => (Except.ok (t.length) : Except Unit ℕ)) [⟨[5, 6], false⟩] []).2
        = some PyErr.valueError ↔ sizedLengths [(⟨[5, 6], false⟩ : PyIterable ℕ)] = [])
  ∧ (p_map 4 (fun t => (Except.ok (t.length) : Except Unit ℕ)) [⟨[7, 8, 9], false⟩] [] []).error?
        = none
  ∧ (p_map 4 (fun t => (Except.ok (t.length) : Except Unit ℕ)) [⟨[7, 8, 9], false⟩] [] []).yields
        = [7, 8, 9].map (fun x => [x].length) :=
  c5_sequential_requires_sized (fun t => (Except.ok (t.length) : Except Unit ℕ))
    [⟨[5, 6], false⟩] [] 1 (by decide) (fun t => t.length) [7, 8, 9] 4 []

/-- C6: fully draining any lazy variant (`p_imap`, `p_uimap` for any
completion order, `t_imap`) yields exactly as many items as the shortest
input: combination of the iterables truncates at the shortest, per zip
semantics. -/
theorem c6_drain_yields_shortest_length (g : List α → β) (its : List (PyIterable α))
    (hne : its ≠ []) (cpuCount : ℕ) (co : List ℕ)
    (hco : co.Perm (List.range (zipTasks its).length))
    (hsz : sizedLengths its ≠ []) :
    (ParallelCall.drain (p_imap (fun t => (Except.ok (g t) : Except E β)) its []) cpuCount co).yields.length
        = minLen (its.map (fun it => it.items))
  ∧ (ParallelCall.drain (p_uimap (fun t => (Except.ok (g t) : Except E β)) its []) cpuCount co).yields.length
        = minLen (its.map (fun it => it.items))
  ∧ (SequentialCall.drain (t_imap (fun t => (Except.ok (g t) : Except E β)) its [])).1.length
        = minLen (its.map (fun it => it.items)) := by
  set f : List α → Except E β := fun t => Except.ok (g t) with hf
  set l : List β := (zipTasks its).map g with hl
  have hmap : (zipTasks its).map f = l.map Except.ok := by
    rw [hl, List.map_map]
    rfl
  have hminlen : l.length = minLen (its.map (fun it => it.items)) := by
    rw [hl, List.length_map]
    exact zipShortest_length _ (fun h => hne (List.map_eq_nil_iff.mp h))
  have hperm : (poolDelivered false f (zipTasks its) co).Perm (l.map Except.ok) := by
    have := poolDelivered_unordered_perm f (zipTasks its) co hco
    rw [hmap] at this
    exact this
  have hallok : ∀ x ∈ poolDelivered false f (zipTasks its) co, ∃ b, x = Except.ok b := by
    intro x hx
    obtain ⟨b, _, hb⟩ := List.mem_map.mp (hperm.subset hx)
    exact ⟨b, hb.symm⟩
  have hds2 := eq_map_ok_of_forall_ok _ hallok
  have hdrain1 := drain_all_ok cpuCount true f its [] co l (by rw [poolDelivered_ordered, hmap])
  have hdrain2 := drain_all_ok cpuCount false f its [] co
    ((poolDelivered false f (zipTasks its) co).filterMap okVal) hds2
  have hl2perm : ((poolDelivered false f (zipTasks its) co).filterMap okVal).Perm l := by
    have := hperm.filterMap okVal
    rw [okVal_map_ok] at this
    exact this
  refine ⟨?_, ?_, ?_⟩
  · show (ParallelCall.drain ⟨true, f, its, []⟩ cpuCount co).yields.length = _
    rw [hdrain1, hminlen]
  · show (ParallelCall.drain ⟨false, f, its, []⟩ cpuCount co).yields.length = _
    rw [hdrain2]
    rw [hl2perm.length_eq, hminlen]
  · simp only [t_imap, SequentialCall.drain, SequentialCall.run]
    rw [sequentialRun_checks f its [] _ hsz rfl, hmap,
      takeYields_all_ok l ((l.map Except.ok).length + 1) (by simp)]
    exact hminlen

/-- Witness for C6 on two sized iterables of lengths 3 and 2 (shortest 2)
with completion order `[1, 0]`. -/
theorem c6_drain_yields_shortest_length_witness :
    (ParallelCall.drain (p_imap (fun t => (Except.ok (t.foldr Nat.add 0) : Except Unit ℕ))
        [⟨[1, 2, 3], true⟩, ⟨[10, 20], true⟩] []) 4 [1, 0]).yields.length
        = minLen ([(⟨[1, 2, 3], true⟩ : PyIterable ℕ), ⟨[10, 20], true⟩].map (fun it => it.items))
  ∧ (ParallelCall.drain (p_uimap (fun t => (Except.ok (t.foldr Nat.add 0) : Except Unit ℕ))
        [⟨[1, 2, 3], true⟩, ⟨[10, 20], true⟩] []) 4 [1, 0]).yields.length
        = minLen ([(⟨[1, 2, 3], true⟩ : PyIterable ℕ), ⟨[10, 20], true⟩].map (fun it => it.items))
  ∧ (SequentialCall.drain (t_imap (fun t => (Except.ok (t.foldr Nat.add 0) : Except Unit ℕ))
        [⟨[1, 2, 3], true⟩, ⟨[10, 20], true⟩] [])).1.length
        = minLen ([(⟨[1, 2, 3], true⟩ : PyIterable ℕ), ⟨[10, 20], true⟩].map (fun it => it.items)) :=
  c6_drain_yields_shortest_length (fun t => t.foldr Nat.add 0)
    [⟨[1, 2, 3], true⟩, ⟨[10, 20], true⟩] (by decide) 4 [1, 0] (by decide) (by decide)

/-- Full drain of a parallel call whose pool delivers `pre` successes and
then an exception `e`: every earlier result is yielded, the error
propagates, and the release step is never reached. -/
theorem drain_split (cpuCount : ℕ) (ordered : Bool) (f : List α → Except E β)
    (its : List (PyIterable α)) (kw : Kwargs) (co : List ℕ)
    (pre : List β) (e : E) (post : List (Except E β))
    (hds : poolDelivered ordered f (zipTasks its) co
      = pre.map Except.ok ++ Except.error e :: post) :
    ParallelCall.drain ⟨ordered, f, its, kw⟩ cpuCount co
      = ⟨Event.poolCreate (parallelNumCpus cpuCount kw) :: pre.map Event.yield,
         pre, some (PyErr.user e)⟩ := by
  have hlen : (poolDelivered ordered f (zipTasks its) co).length
      = pre.length + (post.length + 1) := by
    rw [hds]
    simp [List.length_append]
  simp only [ParallelCall.drain, ParallelCall.run, ParallelCall.numDelivered]
  rw [hlen, parallelRun_succ, hds,
    parallelStep_split_hit pre e post (pre.length + (post.length + 1) + 1) (by omega)]

/-- C7: no exception raised by the mapped function is caught or
suppressed: the eager variants (`p_map`, `p_umap`, `t_map`) fail as a
whole, surfacing the first error in delivery order (after computing the
earlier results), and the lazy variants (`p_imap`, `p_uimap`, `t_imap`)
yield every earlier result and raise exactly when iteration reaches the
failing element — for the unordered variants, the failing element sits at
its slot in the completion-order stream. -/
theorem c7_error_propagation (f : List α → Except E β) (xs : List α) (pre : List β)
    (e : E) (post : List (Except E β)) (cpuCount : ℕ) (co : List ℕ) (k1 k2 : ℕ)
    (hk1 : k1 ≤ pre.length) (hk2 : pre.length < k2)
    (hsplit : xs.map (fun x => f [x]) = pre.map Except.ok ++ Except.error e :: post)
    (eU : E) (preU : List β) (postU : List (Except E β)) (k1U k2U : ℕ)
    (hk1U : k1U ≤ preU.length) (hk2U : preU.length < k2U)
    (hsplitU : poolDelivered false f (zipTasks [⟨xs, true⟩]) co
      = preU.map Except.ok ++ Except.error eU :: postU) :
    (p_map cpuCount f [⟨xs, true⟩] [] co).error? = some (PyErr.user e)
  ∧ (p_map cpuCount f [⟨xs, true⟩] [] co).yields = pre
  ∧ (t_map f [⟨xs, true⟩] []).2 = some (PyErr.user e)
  ∧ (t_map f [⟨xs, true⟩] []).1 = pre
  ∧ (t_imap f [⟨xs, true⟩] []).run k1 = (pre.take k1, none)
  ∧ ((t_imap f [⟨xs, true⟩] []).run k2).2 = some (PyErr.user e)
  ∧ ((t_imap f [⟨xs, true⟩] []).run k2).1 = pre
  ∧ ((p_imap f [⟨xs, true⟩] []).run cpuCount co k1).error? = none
  ∧ ((p_imap f [⟨xs, true⟩] []).run cpuCount co k1).yields = pre.take k1
  ∧ ((p_imap f [⟨xs, true⟩] []).run cpuCount co k2).error? = some (PyErr.user e)
  ∧ ((p_imap f [⟨xs, true⟩] []).run cpuCount co k2).yields = pre
  ∧ (p_umap cpuCount f [⟨xs, true⟩] [] co).error? = some (PyErr.user eU)
  ∧ (p_umap cpuCount f [⟨xs, true⟩] [] co).yields = preU
  ∧ ((p_uimap f [⟨xs, true⟩] []).run cpuCount co k1U).error? = none
  ∧ ((p_uimap f [⟨xs, true⟩] []).run cpuCount co k1U).yields = preU.take k1U
  ∧ ((p_uimap f [⟨xs, true⟩] []).run cpuCount co k2U).error? = some (PyErr.user eU)
  ∧ ((p_uimap f [⟨xs, true⟩] []).run cpuCount co k2U).yields = preU := by
  have hseq : (zipTasks ([⟨xs, true⟩] : List (PyIterable α))).map f
      = pre.map Except.ok ++ Except.error e :: post := by
    rw [zipTasks_single, List.map_map]
    exact hsplit
  have hds : poolDelivered true f (zipTasks [⟨xs, true⟩]) co
      = pre.map Except.ok ++ Except.error e :: post := by
    rw [poolDelivered_ordered]
    exact hseq
  have hsz : sizedLengths ([⟨xs, true⟩] : List (PyIterable α)) ≠ [] := by
    simp [sizedLengths]
  have hp := drain_split cpuCount true f [⟨xs, true⟩] [] co pre e post hds
  have hpU := drain_split cpuCount false f [⟨xs, true⟩] [] co preU eU postU hsplitU
  have hrunSeq : ∀ m, (t_imap f [⟨xs, true⟩] []).run (m + 1)
      = takeYields (pre.map Except.ok ++ Except.error e :: post) (m + 1) := by
    intro m
    simp only [t_imap, SequentialCall.run]
    rw [sequentialRun_checks f [⟨xs, true⟩] [] m hsz rfl, hseq]
  have hrunPar : ∀ m, (p_imap f [⟨xs, true⟩] []).run cpuCount co (m + 1)
      = ⟨Event.poolCreate (parallelNumCpus cpuCount []) ::
            (parallelStep (pre.map Except.ok ++ Except.error e :: post) (m + 1)).1,
         (parallelStep (pre.map Except.ok ++ Except.error e :: post) (m + 1)).2.1,
         (parallelStep (pre.map Except.ok ++ Except.error e :: post) (m + 1)).2.2⟩ := by
    intro m
    simp only [p_imap, ParallelCall.run]
    rw [parallelRun_succ, hds]
  have hrunParU : ∀ m, (p_uimap f [⟨xs, true⟩] []).run cpuCount co (m + 1)
      = ⟨Event.poolCreate (parallelNumCpus cpuCount []) ::
            (parallelStep (preU.map Except.ok ++ Except.error eU :: postU) (m + 1)).1,
         (parallelStep (preU.map Except.ok ++ Except.error eU :: postU) (m + 1)).2.1,
         (parallelStep (preU.map Except.ok ++ Except.error eU :: postU) (m + 1)).2.2⟩ := by
    intro m
    simp only [p_uimap, ParallelCall.run]
    rw [parallelRun_succ, hsplitU]
  refine ⟨?_, ?_, ?_, ?_, ?_, ?_, ?_, ?_, ?_, ?_, ?_, ?_, ?_, ?_, ?_, ?_, ?_⟩
  · show (ParallelCall.drain ⟨true, f, [⟨xs, true⟩], []⟩ cpuCount co).error? = _
    rw [hp]
  · show (ParallelCall.drain ⟨true, f, [⟨xs, true⟩], []⟩ cpuCount co).yields = _
    rw [hp]
  · simp only [t_map, t_imap, SequentialCall.drain, SequentialCall.run]
    rw [sequentialRun_checks f [⟨xs, true⟩] [] _ hsz rfl, hseq,
      takeYields_split_hit pre e post _
        (by simp [List.length_append]; omega)]
  · simp only [t_map, t_imap, SequentialCall.drain, SequentialCall.run]
    rw [sequentialRun_checks f [⟨xs, true⟩] [] _ hsz rfl, hseq,
      takeYields_split_hit pre e post _
        (by simp [List.length_append]; omega)]
  · cases k1 with
    | zero => simp [t_imap, SequentialCall.run, sequentialRun]
    | succ m => rw [hrunSeq, takeYields_split_le pre e post (m + 1) hk1]
  · cases k2 with
    | zero => exact absurd hk2 (by simp)
    | succ m => rw [hrunSeq, takeYields_split_hit pre e post (m + 1) hk2]
  · cases k2 with
    | zero => exact absurd hk2 (by simp)
    | succ m => rw [hrunSeq, takeYields_split_hit pre e post (m + 1) hk2]
  · cases k1 with
    | zero => rfl
    | succ m => rw [hrunPar, parallelStep_split_le pre e post (m + 1) hk1]
  · cases k1 with
    | zero =>
      show ([] : List β) = pre.take 0
      rfl
    | succ m => rw [hrunPar, parallelStep_split_le pre e post (m + 1) hk1]
  · cases k2 with
    | zero => exact absurd hk2 (by simp)
    | succ m => rw [hrunPar, parallelStep_split_hit pre e post (m + 1) hk2]
  · cases k2 with
    | zero => exact absurd hk2 (by simp)
    | succ m => rw [hrunPar, parallelStep_split_hit pre e post (m + 1) hk2]
  · show (ParallelCall.drain ⟨false, f, [⟨xs, true⟩], []⟩ cpuCount co).error? = _
    rw [hpU]
  · show (ParallelCall.drain ⟨false, f, [⟨xs, true⟩], []⟩ cpuCount co).yields = _
    rw [hpU]
  · cases k1U with
    | zero => rfl
    | succ m => rw [hrunParU, parallelStep_split_le preU eU postU (m + 1) hk1U]
  · cases k1U with
    | zero =>
      show ([] : List β) = preU.take 0
      rfl
    | succ m => rw [hrunParU, parallelStep_split_le preU eU postU (m + 1) hk1U]
  · cases k2U with
    | zero => exact absurd hk2U (by simp)
    | succ m => rw [hrunParU, parallelStep_split_hit preU eU postU (m + 1) hk2U]
  · cases k2U with
    | zero => exact absurd hk2U (by simp)
    | succ m => rw [hrunParU, parallelStep_split_hit preU eU postU (m + 1) hk2U]

/-- Witness for C7: the function fails on the second of three inputs; one
result is yielded first in input order, and the error surfaces on the next
pull; under completion order `[2, 0, 1]` the unordered stream delivers two
results before the same failure. -/
theorem c7_error_propagation_witness :
    (p_map 4 (fun t => if t.headI = 2 then Except.error 99 else Except.ok (t.headI * 10))
        [⟨[1, 2, 3], true⟩] [] [2, 0, 1]).error? = some (PyErr.user 99)
  ∧ (p_map 4 (fun t => if t.headI = 2 then Except.error 99 else Except.ok (t.headI * 10))
        [⟨[1, 2, 3], true⟩] [] [2, 0, 1]).yields = [10]
  ∧ (t_map (fun t => if t.headI = 2 then Except.error 99 else Except.ok (t.headI * 10))
        [⟨[1, 2, 3], true⟩] []).2 = some (PyErr.user 99)
  ∧ (t_map (fun t => if t.headI = 2 then Except.error 99 else Except.ok (t.headI * 10))
        [⟨[1, 2, 3], true⟩] []).1 = [10]
  ∧ (t_imap (fun t => if t.headI = 2 then Except.error 99 else Except.ok (t.headI * 10))
        [⟨[1, 2, 3], true⟩] []).run 1 = ([10].take 1, none)
  ∧ ((t_imap (fun t => if t.headI = 2 then Except.error 99 else Except.ok (t.headI * 10))
        [⟨[1, 2, 3], true⟩] []).run 2).2 = some (PyErr.user 99)
  ∧ ((t_imap (fun t => if t.headI = 2 then Except.error 99 else Except.ok (t.headI * 10))
        [⟨[1, 2, 3], true⟩] []).run 2).1 = [10]
  ∧ ((p_imap (fun t => if t.headI = 2 then Except.error 99 else Except.ok (t.headI * 10))
        [⟨[1, 2, 3], true⟩] []).run 4 [2, 0, 1] 1).error? = none
  ∧ ((p_imap (fun t => if t.headI = 2 then Except.error 99 else Except.ok (t.headI * 10))
        [⟨[1, 2, 3], true⟩] []).run 4 [2, 0, 1] 1).yields = [10].take 1
  ∧ ((p_imap (fun t => if t.headI = 2 then Except.error 99 else Except.ok (t.headI * 10))
        [⟨[1, 2, 3], true⟩] []).run 4 [2, 0, 1] 2).error? = some (PyErr.user 99)
  ∧ ((p_imap (fun t => if t.headI = 2 then Except.error 99 else Except.ok (t.headI * 10))
        [⟨[1, 2, 3], true⟩] []).run 4 [2, 0, 1] 2).yields = [10]
  ∧ (p_umap 4 (fun t => if t.headI = 2 then Except.error 99 else Except.ok (t.headI * 10))
        [⟨[1, 2, 3], true⟩] [] [2, 0, 1]).error? = some (PyErr.user 99)
  ∧ (p_umap 4 (fun t => if t.headI = 2 then Except.error 99 else Except.ok (t.headI * 10))
        [⟨[1, 2, 3], true⟩] [] [2, 0, 1]).yields = [30, 10]
  ∧ ((p_uimap (fun t => if t.headI = 2 then Except.error 99 else Except.ok (t.headI * 10))
        [⟨[1, 2, 3], true⟩] []).run 4 [2, 0, 1] 2).error? = none
  ∧ ((p_uimap (fun t => if t.headI = 2 then Except.error 99 else Except.ok (t.headI * 10))
        [⟨[1, 2, 3], true⟩] []).run 4 [2, 0, 1] 2).yields = [30, 10].take 2
  ∧ ((p_uimap (fun t => if t.headI = 2 then Except.error 99 else Except.ok (t.headI * 10))
        [⟨[1, 2, 3], true⟩] []).run 4 [2, 0, 1] 3).error? = some (PyErr.user 99)
  ∧ ((p_uimap (fun t => if t.headI = 2 then Except.error 99 else Except.ok (t.headI * 10))
        [⟨[1, 2, 3], true⟩] []).run 4 [2, 0, 1] 3).yields = [30, 10] :=
  c7_error_propagation
    (fun t => if t.headI = 2 then Except.error 99 else Except.ok (t.headI * 10))
    [1, 2, 3] [10] 99 [Except.ok 30] 4 [2, 0, 1] 1 2 (by decide) (by decide) (by rfl)
    99 [30, 10] [] 2 3 (by decide) (by decide) (by rfl)

/-- C8: pool lifecycle: an advanced parallel generator — ordered or
unordered — creates exactly one pool; `pool.clear()` runs exactly on the
`next()` call that exhausts the generator and never before, so an
abandoned lazy sequence (`p_imap` or `p_uimap`) never releases the pool,
while the eager `p_map` and `p_umap` drain to exhaustion and always
release it; a run aborted by a mapped-function exception also never
reaches the release step in either mode. -/
theorem c8_pool_lifecycle (g : List α → β) (its : List (PyIterable α)) (kw : Kwargs)
    (cpuCount : ℕ) (co : List ℕ) (k : ℕ) (hk : 1 ≤ k)
    (f2 : List α → Except E β) (pre : List β) (e : E) (post : List (Except E β))
    (hsplit : poolDelivered true f2 (zipTasks its) co
      = pre.map Except.ok ++ Except.error e :: post)
    (hco : co.Perm (List.range (zipTasks its).length))
    (preU : List β) (eU : E) (postU : List (Except E β))
    (hsplitU : poolDelivered false f2 (zipTasks its) co
      = preU.map Except.ok ++ Except.error eU :: postU) :
    ((parallelRun cpuCount true (fun t => (Except.ok (g t) : Except E β)) its kw co k).events.countP
        Event.isCreate = 1)
  ∧ (Event.poolClear
        ∈ (parallelRun cpuCount true (fun t => (Except.ok (g t) : Except E β)) its kw co k).events
      ↔ (zipTasks its).length < k)
  ∧ Event.poolClear ∈ (p_map cpuCount (fun t => (Except.ok (g t) : Except E β)) its kw co).events
  ∧ Event.poolClear ∉ (parallelRun cpuCount true f2 its kw co k).events
  ∧ ((parallelRun cpuCount false (fun t => (Except.ok (g t) : Except E β)) its kw co k).events.countP
        Event.isCreate = 1)
  ∧ (Event.poolClear
        ∈ (parallelRun cpuCount false (fun t => (Except.ok (g t) : Except E β)) its kw co k).events
      ↔ (zipTasks its).length < k)
  ∧ Event.poolClear ∈ (p_umap cpuCount (fun t => (Except.ok (g t) : Except E β)) its kw co).events
  ∧ Event.poolClear ∉ (parallelRun cpuCount false f2 its kw co k).events := by
  set f : List α → Except E β := fun t => Except.ok (g t) with hf
  set l : List β := (zipTasks its).map g with hl
  have hmap : poolDelivered true f (zipTasks its) co = l.map Except.ok := by
    rw [poolDelivered_ordered, hl, List.map_map]
    rfl
  have hlen : l.length = (zipTasks its).length := by
    rw [hl, List.length_map]
  have hm : (zipTasks its).map f = l.map Except.ok := hmap
  have hpermU : (poolDelivered false f (zipTasks its) co).Perm (l.map Except.ok) := by
    have h0 := poolDelivered_unordered_perm f (zipTasks its) co hco
    rw [hm] at h0
    exact h0
  have hallokU : ∀ x ∈ poolDelivered false f (zipTasks its) co, ∃ b, x = Except.ok b := by
    intro x hx
    obtain ⟨b, _, hb⟩ := List.mem_map.mp (hpermU.subset hx)
    exact ⟨b, hb.symm⟩
  set l2 : List β := (poolDelivered false f (zipTasks its) co).filterMap okVal with hl2
  have hdsU : poolDelivered false f (zipTasks its) co = l2.map Except.ok := by
    rw [hl2]
    exact eq_map_ok_of_forall_ok _ hallokU
  have hl2perm : l2.Perm l := by
    have h0 := hpermU.filterMap okVal
    rw [okVal_map_ok] at h0
    rw [hl2]
    exact h0
  have hlen2 : l2.length = (zipTasks its).length := by
    rw [hl2perm.length_eq, hlen]
  obtain ⟨m, rfl⟩ : ∃ m, k = m + 1 := ⟨k - 1, by omega⟩
  refine ⟨?_, ?_, ?_, ?_, ?_, ?_, ?_, ?_⟩
  · rw [parallelRun_succ]
    simp [List.countP_cons, Event.isCreate, parallelStep_no_create]
  · rw [parallelRun_succ, hmap]
    by_cases hlt : (zipTasks its).length < m + 1
    · rw [parallelStep_all_ok l (m + 1) (by omega)]
      simp [hlt]
    · have hle : m + 1 ≤ l.length := by omega
      rw [parallelStep_all_ok_le l (m + 1) hle]
      simp only [List.mem_cons, List.mem_map]
      constructor
      · rintro (h | ⟨b, _, h⟩) <;> exact absurd h (by simp)
      · intro h
        exact absurd h hlt
  · have hdrain := drain_all_ok cpuCount true f its kw co l hmap
    show Event.poolClear ∈ (ParallelCall.drain ⟨true, f, its, kw⟩ cpuCount co).events
    rw [hdrain]
    simp
  · rw [parallelRun_succ, hsplit]
    by_cases hlt : pre.length < m + 1
    · rw [parallelStep_split_hit pre e post (m + 1) hlt]
      simp only [List.mem_cons, List.mem_map]
      rintro (h | ⟨b, _, h⟩) <;> exact absurd h (by simp)
    · rw [parallelStep_split_le pre e post (m + 1) (by omega)]
      simp only [List.mem_cons, List.mem_map]
      rintro (h | ⟨b, _, h⟩) <;> exact absurd h (by simp)
  · rw [parallelRun_succ]
    simp [List.countP_cons, Event.isCreate, parallelStep_no_create]
  · rw [parallelRun_succ, hdsU]
    by_cases hlt : (zipTasks its).length < m + 1
    · rw [parallelStep_all_ok l2 (m + 1) (by omega)]
      simp [hlt]
    · have hle : m + 1 ≤ l2.length := by omega
      rw [parallelStep_all_ok_le l2 (m + 1) hle]
      simp only [List.mem_cons, List.mem_map]
      constructor
      · rintro (h | ⟨b, _, h⟩) <;> exact absurd h (by simp)
      · intro h
        exact absurd h hlt
  · have hdrainU := drain_all_ok cpuCount false f its kw co l2 hdsU
    show Event.poolClear ∈ (ParallelCall.drain ⟨false, f, its, kw⟩ cpuCount co).events
    rw [hdrainU]
    simp
  · rw [parallelRun_succ, hsplitU]
    by_cases hlt : preU.length < m + 1
    · rw [parallelStep_split_hit preU eU postU (m + 1) hlt]
      simp only [List.mem_cons, List.mem_map]
      rintro (h | ⟨b, _, h⟩) <;> exact absurd h (by simp)
    · rw [parallelStep_split_le preU eU postU (m + 1) (by omega)]
      simp only [List.mem_cons, List.mem_map]
      rintro (h | ⟨b, _, h⟩) <;> exact absurd h (by simp)

/-- Witness for C8: two tasks, budget three (exhaustion), completion
order `[1, 0]`, and an error-delivering run that never clears the pool,
in both the ordered and the unordered mode. -/
theorem c8_pool_lifecycle_witness :
    ((parallelRun 2 true (fun t => (Except.ok (t.headI) : Except ℕ ℕ)) [⟨[1, 2], true⟩] [] [1, 0] 3).events.countP
        Event.isCreate = 1)
  ∧ (Event.poolClear
        ∈ (parallelRun 2 true (fun t => (Except.ok (t.headI) : Except ℕ ℕ)) [⟨[1, 2], true⟩] [] [1, 0] 3).events
      ↔ (zipTasks [(⟨[1, 2], true⟩ : PyIterable ℕ)]).length < 3)
  ∧ Event.poolClear
      ∈ (p_map 2 (fun t => (Except.ok (t.headI) : Except ℕ ℕ)) [⟨[1, 2], true⟩] [] [1, 0]).events
  ∧ Event.poolClear ∉ (parallelRun 2 true (fun _ => (Except.error 7 : Except ℕ ℕ))
        [⟨[1, 2], true⟩] [] [1, 0] 3).events
  ∧ ((parallelRun 2 false (fun t => (Except.ok (t.headI) : Except ℕ ℕ)) [⟨[1, 2], true⟩] [] [1, 0] 3).events.countP
        Event.isCreate = 1)
  ∧ (Event.poolClear
        ∈ (parallelRun 2 false (fun t => (Except.ok (t.headI) : Except ℕ ℕ)) [⟨[1, 2], true⟩] [] [1, 0] 3).events
      ↔ (zipTasks [(⟨[1, 2], true⟩ : PyIterable ℕ)]).length < 3)
  ∧ Event.poolClear
      ∈ (p_umap 2 (fun t => (Except.ok (t.headI) : Except ℕ ℕ)) [⟨[1, 2], true⟩] [] [1, 0]).events
  ∧ Event.poolClear ∉ (parallelRun 2 false (fun _ => (Except.error 7 : Except ℕ ℕ))
        [⟨[1, 2], true⟩] [] [1, 0] 3).events :=
  c8_pool_lifecycle (fun t => t.headI) [⟨[1, 2], true⟩] [] 2 [1, 0] 3 (by decide)
    (fun _ => (Except.error 7 : Except ℕ ℕ)) [] 7 [Except.error 7] (by rfl)
    (by decide) [] 7 [Except.error 7] (by rfl)

theorem lookup_filter_self (k : String) (kw : Kwargs) :
    List.lookup k (kw.filter (fun p => !(p.1 == k))) = none := by
  induction kw with
  | nil => rfl
  | cons hd tl ih =>
    rcases hd with ⟨a, v⟩
    by_cases h : a = k
    · simp [List.filter_cons, beq_iff_eq.mpr h, ih]
    · have ha : (a == k) = false := beq_eq_false_iff_ne.mpr h
      have hka : (k == a) = false := beq_eq_false_iff_ne.mpr (fun hh => h hh.symm)
      simp [List.filter_cons, List.lookup, ha, hka, ih]

/-- C9 counterexample: the sequential entry points do not consume the
recognized keys: `num_cpus` is forwarded untouched to the progress
display by `_sequential`. -/
theorem c9_counterexample :
    sequentialTqdmKwargs [(("num_cpus"), PyVal.int 2)] = [(("num_cpus"), PyVal.int 2)]
  ∧ List.lookup ("num_cpus") (sequentialTqdmKwargs [(("num_cpus"), PyVal.int 2)])
      = some (PyVal.int 2) :=
  ⟨rfl, rfl⟩

/-- C9 (amended): the parallel entry points consume exactly the two
recognized keys (`num_cpus`, then `total`) and forward every other option
unmodified, in order; the sequential entry points consume nothing and
forward all options unmodified, including `num_cpus` and `total` when
supplied. -/
theorem c9_kwargs_forwarding_amended (kw kw2 : Kwargs) (key : String)
    (h1 : key ≠ "num_cpus") (h2 : key ≠ "total") :
    parallelTqdmKwargs kw
        = (kw.filter (fun p => !(p.1 == "num_cpus"))).filter (fun p => !(p.1 == "total"))
  ∧ List.lookup ("num_cpus") (parallelTqdmKwargs kw) = none
  ∧ List.lookup ("total") (parallelTqdmKwargs kw) = none
  ∧ List.lookup key (parallelTqdmKwargs kw) = List.lookup key kw
  ∧ sequentialTqdmKwargs kw2 = kw2 := by
  refine ⟨rfl, ?_, ?_, ?_, rfl⟩
  · show List.lookup ("num_cpus")
      ((kw.filter (fun p => !(p.1 == "num_cpus"))).filter (fun p => !(p.1 == "total"))) = none
    rw [lookup_filter_ne _ _ _ (by decide)]
    exact lookup_filter_self _ kw
  · exact lookup_filter_self _ _
  · show List.lookup key
      ((kw.filter (fun p => !(p.1 == "num_cpus"))).filter (fun p => !(p.1 == "total")))
        = List.lookup key kw
    rw [lookup_filter_ne _ _ _ h2, lookup_filter_ne _ _ _ h1]

/-- Witness for C9 (amended) on kwargs holding both recognized keys and a
display option `desc`: the parallel forwarding strips exactly the two
recognized keys and keeps `desc`; the sequential forwarding keeps all. -/
theorem c9_kwargs_forwarding_amended_witness :
    parallelTqdmKwargs [(("num_cpus"), PyVal.int 2), (("desc"), PyVal.str ("W")),
        (("total"), PyVal.int 9)]
        = (([(("num_cpus"), PyVal.int 2), (("desc"), PyVal.str ("W")),
            (("total"), PyVal.int 9)] : Kwargs).filter
              (fun p => !(p.1 == "num_cpus"))).filter (fun p => !(p.1 == "total"))
  ∧ List.lookup ("num_cpus") (parallelTqdmKwargs [(("num_cpus"), PyVal.int 2),
        (("desc"), PyVal.str ("W")), (("total"), PyVal.int 9)]) = none
  ∧ List.lookup ("total") (parallelTqdmKwargs [(("num_cpus"), PyVal.int 2),
        (("desc"), PyVal.str ("W")), (("total"), PyVal.int 9)]) = none
  ∧ List.lookup ("desc") (parallelTqdmKwargs [(("num_cpus"), PyVal.int 2),
        (("desc"), PyVal.str ("W")), (("total"), PyVal.int 9)])
      = List.lookup ("desc") [(("num_cpus"), PyVal.int 2), (("desc"), PyVal.str ("W")),
          (("total"), PyVal.int 9)]
  ∧ sequentialTqdmKwargs [(("num_cpus"), PyVal.int 2), (("total"), PyVal.int 9)]
      = [(("num_cpus"), PyVal.int 2), (("total"), PyVal.int 9)] :=
  c9_kwargs_forwarding_amended
    [(("num_cpus"), PyVal.int 2), (("desc"), PyVal.str ("W")), (("total"), PyVal.int 9)]
    [(("num_cpus"), PyVal.int 2), (("total"), PyVal.int 9)] ("desc")
    (by decide) (by decide)

/-- C10: calling any lazy entry point returns its suspended generator
without doing any work: advancing it zero times produces no events, no
yields and no error for `p_imap`, `p_uimap` and `t_imap` alike; in
particular `t_imap` with no sized iterable returns successfully, and its
`ValueError` surfaces only on the first `next()` call. -/
theorem c10_lazy_calls_do_no_work (f : List α → Except E β) (its : List (PyIterable α))
    (kw : Kwargs) (cpuCount : ℕ) (co : List ℕ)
    (f2 : List α → Except E β) (its2 : List (PyIterable α)) (kw2 : Kwargs)
    (h : sizedLengths its2 = []) :
    (p_imap f its kw).run cpuCount co 0 = ⟨[], [], none⟩
  ∧ (p_uimap f its kw).run cpuCount co 0 = ⟨[], [], none⟩
  ∧ (t_imap f its kw).run 0 = ([], none)
  ∧ (t_imap f2 its2 kw2).run 0 = ([], none)
  ∧ (t_imap f2 its2 kw2).run 1 = ([], some PyErr.valueError) := by
  refine ⟨rfl, rfl, rfl, rfl, ?_⟩
  show sequentialRun f2 its2 kw2 (0 + 1) = ([], some PyErr.valueError)
  simp [sequentialRun, h]

/-- Witness for C10: a sized call and an all-unsized call, both inert at
zero advancement; the unsized sequential call fails on the first pull. -/
theorem c10_lazy_calls_do_no_work_witness :
    (p_imap (fun _ => (Except.ok 0 : Except Unit ℕ)) [⟨[1], true⟩] []).run 4 [] 0
        = ⟨[], [], none⟩
  ∧ (p_uimap (fun _ => (Except.ok 0 : Except Unit ℕ)) [⟨[1], true⟩] []).run 4 [] 0
        = ⟨[], [], none⟩
  ∧ (t_imap (fun _ => (Except.ok 0 : Except Unit ℕ)) [⟨[1], true⟩] []).run 0 = ([], none)
  ∧ (t_imap (fun _ => (Except.ok 0 : Except Unit ℕ)) [⟨[2, 3], false⟩] []).run 0 = ([], none)
  ∧ (t_imap (fun _ => (Except.ok 0 : Except Unit ℕ)) [⟨[2, 3], false⟩] []).run 1
        = ([], some PyErr.valueError) :=
  c10_lazy_calls_do_no_work (fun _ => (Except.ok 0 : Except Unit ℕ)) [⟨[1], true⟩] [] 4 []
    (fun _ => (Except.ok 0 : Except Unit ℕ)) [⟨[2, 3], false⟩] [] (by decide)

end PTqdm
